import Mathlib

set_option maxHeartbeats 1000000

/-!
Shallow embedding of the MXWriter incremental XML serializer
(`dlls/msxml3/mxwriter.c`): dual output buffers, the XML escaper,
the pending-tag state machine, the prolog writer and the
flush/reset protocol, together with theorems settling the
specification's claims about them.

Strings of 16-bit `WCHAR` units are modelled as `List Nat` of code
units; byte buffers as `List Nat` of bytes.  A buffer's `written`
high-water mark always equals the length of the content list, so it
is not carried separately.  The external `IStream` sink is modelled
by a response oracle (`Option Nat`): `none` is a failing write,
`some k` a successful write that accepts up to `k` bytes.
-/

namespace Mxwriter

/-- COM result codes returned by the operations modelled here. -/
inductive HResult
  | S_OK
  | E_INVALIDARG
  | E_FAIL
  | E_NOTIMPL
deriving DecidableEq, Repr

/-- `FAILED(hr)`: every modelled code except `S_OK` is a failure. -/
def HResult.failed : HResult → Bool
  | HResult.S_OK => false
  | _ => true

/-- The two encodings the writer supports (`xmlCharEncoding` values
actually reachable: `XML_CHAR_ENCODING_UTF8`, `XML_CHAR_ENCODING_UTF16LE`). -/
inductive xmlCharEncoding
  | utf8
  | utf16le
deriving DecidableEq, Repr

/-- Resolved code page of the encoded buffer: `CP_UTF8`, or the `~0`
sentinel meaning "no conversion, the buffer is already native UTF-16". -/
inductive CodePage
  | cpUTF8
  | cpNone
deriving DecidableEq, Repr

/-- `get_code_page`: resolves the code page for an encoding. -/
def get_code_page : xmlCharEncoding → CodePage
  | xmlCharEncoding.utf8 => CodePage.cpUTF8
  | xmlCharEncoding.utf16le => CodePage.cpNone

/-- A wide string literal as a list of code units. -/
def strLit (s : String) : List Nat :=
  s.data.map Char.toNat

/-- `utf16W` constant from the source. -/
def utf16W : List Nat := strLit "UTF-16"

/-- `utf8W` constant from the source. -/
def utf8W : List Nat := strLit "UTF-8"

/-- `get_encoding_name`: the name written into the encoded prolog. -/
def get_encoding_name : xmlCharEncoding → List Nat
  | xmlCharEncoding.utf8 => utf8W
  | xmlCharEncoding.utf16le => utf16W

/-- `output_buffer`: the native UTF-16 buffer (as code units; its byte
`written` count is twice the length), the encoded byte buffer used when
the target is UTF-8, and the resolved code page. -/
structure output_buffer where
  utf16 : List Nat
  encoded : List Nat
  code_page : CodePage
deriving DecidableEq, Repr

/-- UTF-8 bytes of one UTF-16 code unit; models `WideCharToMultiByte`
with `CP_UTF8` applied unit by unit (surrogate pairs are not combined;
every concrete input in this development is ASCII). -/
def utf8Char (c : Nat) : List Nat :=
  if c < 128 then [c]
  else if c < 2048 then [192 + c / 64, 128 + c % 64]
  else [224 + c / 4096, 128 + c / 64 % 64, 128 + c % 64]

/-- UTF-8 encoding of a span of code units. -/
def utf8enc (l : List Nat) : List Nat := (l.map utf8Char).flatten

/-- Little-endian bytes of one UTF-16 code unit. -/
def wcharBytes (c : Nat) : List Nat := [c % 256, c / 256 % 256]

/-- The raw bytes of the native UTF-16 buffer. -/
def utf16Bytes (l : List Nat) : List Nat := (l.map wcharBytes).flatten

/-- `output_mode` flags selecting which of the two buffers to append to. -/
inductive output_mode
  | native
  | encoded
  | both
deriving DecidableEq, Repr

/-- The span of input a write call consumes: an explicit unit count, or
the `len == -1` "rest of string" sentinel, which scans to the NUL
terminator (`strlenW` on the native side, the implicit-terminator
accounting on the encoded side). -/
def wspan (data : List Nat) : Option Nat → List Nat
  | none => data.takeWhile (fun c => c != 0)
  | some n => data.take n

/-- `write_output_buffer_mode`: appends the selected span to the native
buffer (verbatim code units, `mode` includes Native/Both) and, when the
code page is UTF-8, its converted bytes to the encoded buffer (`mode`
includes Encoded/Both).  The two conditional appends of the source are
rendered as two independent conditional appends; the trailing wide NUL
the source keeps beyond `written` is not content and is not modelled. -/
def write_output_buffer_mode (b : output_buffer) (mode : output_mode)
    (data : List Nat) (len : Option Nat) : output_buffer :=
  { utf16 := b.utf16 ++
      (if mode = output_mode.native ∨ mode = output_mode.both then wspan data len else []),
    encoded := b.encoded ++
      (if (mode = output_mode.encoded ∨ mode = output_mode.both) ∧ b.code_page = CodePage.cpUTF8
       then utf8enc (wspan data len) else []),
    code_page := b.code_page }

/-- `write_output_buffer`: append to both representations. -/
def write_output_buffer (b : output_buffer) (data : List Nat) (len : Option Nat) : output_buffer :=
  write_output_buffer_mode b output_mode.both data len

/-- The escaper's per-unit entity table:
`<` to `&lt;`, `&` to `&amp;`, `"` to `&quot;`, `>` to `&gt;`,
everything else copied unchanged. -/
def escW (c : Nat) : List Nat :=
  if c = 60 then [38, 108, 116, 59]
  else if c = 38 then [38, 97, 109, 112, 59]
  else if c = 34 then [38, 113, 117, 111, 116, 59]
  else if c = 62 then [38, 103, 116, 59]
  else [c]

/-- `get_escaped_string`, supplied-length path: the loop
`while (*str && p)` stops when the remaining count `p` hits zero or a
NUL unit is read (reading past the end of the list is reading the
terminator, hence NUL). -/
def get_escaped_string_len : List Nat → Nat → List Nat
  | _, 0 => []
  | [], _ + 1 => []
  | c :: t, p + 1 => if c = 0 then [] else escW c ++ get_escaped_string_len t p

/-- `get_escaped_string`, `len == -1` sentinel path: scan to the terminator. -/
def get_escaped_string_rest : List Nat → List Nat
  | [] => []
  | c :: t => if c = 0 then [] else escW c ++ get_escaped_string_rest t

/-- Number of input units consumed by the `get_escaped_string` loop on
the supplied-length path: one per iteration of `while (*str && p)`
(each iteration does `str++` and `p--`). -/
def escConsumed : List Nat → Nat → Nat
  | _, 0 => 0
  | [], _ + 1 => 0
  | c :: t, p + 1 => if c = 0 then 0 else 1 + escConsumed t p

/-- `get_escaped_string`: returns the escaped text and, when an explicit
length was supplied, the output length written back through `len`. -/
def get_escaped_string (str : List Nat) (len : Option Nat) : List Nat × Option Nat :=
  match len with
  | some n =>
    let r := get_escaped_string_len str n
    (r, some r.length)
  | none => (get_escaped_string_rest str, none)

/-- `strncmpW(s1, s2, n) == 0`: the two NUL-terminated wide strings agree
on their first `n` units (comparison stops early at a shared NUL; reading
past the end of a list is reading the terminator). -/
def strncmpW_eq : List Nat → List Nat → Nat → Bool
  | _, _, 0 => true
  | s1, s2, n + 1 =>
    let c1 := s1.headD 0
    let c2 := s2.headD 0
    if c1 ≠ c2 then false
    else if c1 = 0 then true
    else strncmpW_eq s1.tail s2.tail n

/-- `strcmpW(s1, s2) == 0`: NUL-terminated wide-string equality
(case-sensitive). -/
def strcmpW_eq : List Nat → List Nat → Bool
  | [], [] => true
  | [], y :: _ => y = 0
  | x :: _, [] => x = 0
  | x :: xs, y :: ys => if x ≠ y then false else if x = 0 then true else strcmpW_eq xs ys

/-- The five boolean configuration properties (`MXWRITER_PROPS`). -/
inductive MXProp
  | bom
  | disableEscaping
  | indent
  | omitXmlDecl
  | standalone
deriving DecidableEq, Repr

/-- The property store `props[MXWriter_LastProp]`. -/
structure Props where
  bom : Bool
  disableEscaping : Bool
  indent : Bool
  omitXmlDecl : Bool
  standalone : Bool
deriving DecidableEq, Repr

/-- Read one slot of the property store. -/
def getProp (ps : Props) : MXProp → Bool
  | MXProp.bom => ps.bom
  | MXProp.disableEscaping => ps.disableEscaping
  | MXProp.indent => ps.indent
  | MXProp.omitXmlDecl => ps.omitXmlDecl
  | MXProp.standalone => ps.standalone

/-- Write one slot of the property store. -/
def setPropF (ps : Props) : MXProp → Bool → Props
  | MXProp.bom, v => { ps with bom := v }
  | MXProp.disableEscaping, v => { ps with disableEscaping := v }
  | MXProp.indent, v => { ps with indent := v }
  | MXProp.omitXmlDecl, v => { ps with omitXmlDecl := v }
  | MXProp.standalone, v => { ps with standalone := v }

/-- The `mxwriter` object state: configuration, the pending (not yet
closed) element name or `none`, whether a destination stream is
attached, the count of chosen-representation bytes already delivered to
it, and the dual output buffer. -/
structure mxwriter where
  classVersion6 : Bool
  props : Props
  prop_changed : Bool
  encoding : xmlCharEncoding
  version : List Nat
  element : Option (List Nat)
  dest : Bool
  dest_written : Nat
  buffer : output_buffer
deriving DecidableEq, Repr

/-- `writer_set_property`: set the slot and mark the configuration
changed; nothing else is touched. -/
def writer_set_property (w : mxwriter) (p : MXProp) (v : Bool) : HResult × mxwriter :=
  (HResult.S_OK, { w with props := setPropF w.props p v, prop_changed := true })

/-- `close_element_starttag`: if a start tag is pending, emit its `>`.
Does not clear the pending name. -/
def close_element_starttag (w : mxwriter) : mxwriter :=
  match w.element with
  | none => w
  | some _ => { w with buffer := write_output_buffer w.buffer [62] (some 1) }

/-- `close_output_buffer`: discard both buffers, reinitialize them empty
and re-resolve the code page from the current encoding. -/
def close_output_buffer (w : mxwriter) : mxwriter :=
  { w with buffer := { utf16 := [], encoded := [], code_page := get_code_page w.encoding } }

/-- `reset_output_buffer`: close the buffer and zero the sink offset. -/
def reset_output_buffer (w : mxwriter) : mxwriter :=
  { close_output_buffer w with dest_written := 0 }

/-- The byte representation `write_data_to_stream` flushes: the encoded
buffer unless the encoding is UTF-16LE, in which case the native buffer's
raw bytes. -/
def chosenBytes (w : mxwriter) : List Nat :=
  if w.encoding = xmlCharEncoding.utf16le then utf16Bytes w.buffer.utf16 else w.buffer.encoded

/-- `write_data_to_stream`: push the not-yet-delivered tail of the chosen
buffer to the destination stream.  No stream: trivial success.  The
offset exceeding the buffer's written count is the fatal sanity-check
failure.  A zero delta short-circuits unless the encoding is UTF-8,
which always issues one (possibly empty) write.  `resp` is the stream's
behavior: `none` a failed write, `some k` success accepting up to `k`
bytes, which are added to the offset.  Also returns the write requests
issued to the stream. -/
def write_data_to_stream (w : mxwriter) (resp : Option Nat) :
    HResult × mxwriter × List (List Nat) :=
  if w.dest = false then (HResult.S_OK, w, [])
  else
    let buf := chosenBytes w
    if buf.length < w.dest_written then (HResult.E_FAIL, w, [])
    else if w.dest_written = buf.length ∧ w.encoding ≠ xmlCharEncoding.utf8 then
      (HResult.S_OK, w, [])
    else
      let chunk := buf.drop w.dest_written
      match resp with
      | none => (HResult.E_FAIL, w, [chunk])
      | some k =>
        (HResult.S_OK, { w with dest_written := w.dest_written + min k chunk.length }, [chunk])

/-- The state mutation `flush_output_buffer` performs before touching the
stream: close any pending start tag and clear the pending name. -/
def flush_preamble (w : mxwriter) : mxwriter :=
  { close_element_starttag w with element := none }

/-- `flush_output_buffer`: close the pending tag, clear it, write the
buffered delta to the stream. -/
def flush_output_buffer (w : mxwriter) (resp : Option Nat) :
    HResult × mxwriter × List (List Nat) :=
  write_data_to_stream (flush_preamble w) resp

/-- `write_prolog_buffer`: emit the XML declaration.  The version is
written with the rest-of-string sentinel; the encoding name goes to the
native buffer as `UTF-16` always and to the encoded buffer as the name
of the active encoding. -/
def write_prolog_buffer (w : mxwriter) : output_buffer :=
  let b := write_output_buffer w.buffer (strLit "<?xml version=\"") (some 15)
  let b := write_output_buffer b w.version none
  let b := write_output_buffer b [34] (some 1)
  let b := write_output_buffer b (strLit " encoding=\"") (some 11)
  let b := write_output_buffer_mode b output_mode.native utf16W (some 6)
  let b := write_output_buffer_mode b output_mode.encoded (get_encoding_name w.encoding) none
  let b := write_output_buffer b [34] (some 1)
  let b := write_output_buffer b (strLit " standalone=\"") (some 13)
  let b := if w.props.standalone then write_output_buffer b (strLit "yes\"?>") (some 6)
           else write_output_buffer b (strLit "no\"?>") (some 5)
  write_output_buffer b [13, 10] (some 2)

/-- `ISAXContentHandler::startDocument`: reset the buffer if any property
changed since the last document boundary (clearing the flag), stop there
if the declaration is omitted, otherwise write the prolog and, when a
stream is attached with UTF-16LE encoding and the BOM property on, issue
a direct fire-and-forget BOM write to the stream (its outcome ignored,
the offset not advanced). -/
def startDocument (w : mxwriter) : HResult × mxwriter × List (List Nat) :=
  let w := if w.prop_changed then { reset_output_buffer w with prop_changed := false } else w
  if w.props.omitXmlDecl then (HResult.S_OK, w, [])
  else
    let w2 := { w with buffer := write_prolog_buffer w }
    (HResult.S_OK, w2,
      if w2.dest = true ∧ w2.encoding = xmlCharEncoding.utf16le ∧ w2.props.bom = true
      then [[255, 254]] else [])

/-- `ISAXContentHandler::endDocument`: clear the changed flag and flush. -/
def endDocument (w : mxwriter) (resp : Option Nat) : HResult × mxwriter × List (List Nat) :=
  flush_output_buffer { w with prop_changed := false } resp

/-- One attribute of `startElement`: space, qualified name, `="`,
escaped value (explicit length), closing quote.  The collaborating
`ISAXAttributes` returns each name and value with its exact length. -/
def write_attribute (b : output_buffer) (a : List Nat × List Nat) : output_buffer :=
  let b := write_output_buffer b [32] (some 1)
  let b := write_output_buffer b a.1 (some a.1.length)
  let b := write_output_buffer b [61, 34] (some 2)
  let esc := get_escaped_string a.2 (some a.2.length)
  let b := write_output_buffer b esc.1 (some esc.1.length)
  write_output_buffer b [34] (some 1)

/-- `ISAXContentHandler::startElement`: null name parts fail except for
the MSXML6 class version; close any open tag, record the new pending
name, write `<` + name and the attribute list. -/
def startElement (w : mxwriter) (nsUri localName qname : Option (List Nat)) (nQName : Nat)
    (attrs : Option (List (List Nat × List Nat))) : HResult × mxwriter :=
  if (nsUri = none ∨ localName = none ∨ qname = none) ∧ w.classVersion6 = false then
    (HResult.E_INVALIDARG, w)
  else
    let w1 := close_element_starttag w
    let w2 := { w1 with element := some ((qname.getD []).take nQName) }
    let b := write_output_buffer w2.buffer [60] (some 1)
    let b := write_output_buffer b (qname.getD []) (some nQName)
    let b := match attrs with
      | none => b
      | some l => l.foldl write_attribute b
    (HResult.S_OK, { w2 with buffer := b })

/-- The explicit closing-tag emission `</` + name + `>`. -/
def endTagWrite (b : output_buffer) (q : List Nat) (n : Nat) : output_buffer :=
  let b := write_output_buffer b [60, 47] (some 2)
  let b := write_output_buffer b q (some n)
  write_output_buffer b [62] (some 1)

/-- `ISAXContentHandler::endElement`: null name parts fail except for
MSXML6; emit `/>` when a tag is pending, the incoming name is non-null
and `strncmpW(element, QName, nQName)` reports a match, else emit the
explicit closing tag; clear the pending name unconditionally. -/
def endElement (w : mxwriter) (nsUri localName qname : Option (List Nat)) (nQName : Nat) :
    HResult × mxwriter :=
  if (nsUri = none ∨ localName = none ∨ qname = none) ∧ w.classVersion6 = false then
    (HResult.E_INVALIDARG, w)
  else
    let b :=
      match w.element, qname with
      | some e, some q =>
        if strncmpW_eq e q nQName then write_output_buffer w.buffer [47, 62] (some 2)
        else endTagWrite w.buffer q nQName
      | _, _ => endTagWrite w.buffer (qname.getD []) nQName
    (HResult.S_OK, { w with element := none, buffer := b })

/-- `ISAXContentHandler::characters`: null text fails; close any open
tag, clear the pending name, then append the text span verbatim (no
escaping happens here). -/
def characters (w : mxwriter) (chars : Option (List Nat)) (nchars : Nat) : HResult × mxwriter :=
  match chars with
  | none => (HResult.E_INVALIDARG, w)
  | some cs =>
    let w1 := { close_element_starttag w with element := none }
    if nchars ≠ 0 then
      (HResult.S_OK, { w1 with buffer := write_output_buffer w1.buffer cs (some nchars) })
    else (HResult.S_OK, w1)

/-- `IMXWriter::put_encoding`: only the exact names `UTF-16` and `UTF-8`
(by `strcmpW`) are accepted; on a match flush, adopt the parsed
encoding, and reset the buffer; otherwise fail without touching
anything. -/
def put_encoding (w : mxwriter) (name : List Nat) (resp : Option Nat) :
    HResult × mxwriter × List (List Nat) :=
  if strcmpW_eq name utf16W ∨ strcmpW_eq name utf8W then
    let r := flush_output_buffer w resp
    if r.1.failed then r
    else
      let enc := if strcmpW_eq name utf16W then xmlCharEncoding.utf16le else xmlCharEncoding.utf8
      (HResult.S_OK, reset_output_buffer { r.2.1 with encoding := enc }, r.2.2)
  else (HResult.E_INVALIDARG, w, [])

/-- `IMXWriter::put_version`: a null argument fails; any other value,
the empty string included, replaces the stored version. -/
def put_version (w : mxwriter) (version : Option (List Nat)) : HResult × mxwriter :=
  match version with
  | none => (HResult.E_INVALIDARG, w)
  | some v => (HResult.S_OK, { w with version := v })

/-- `IMXWriter::put_output` with `VT_EMPTY`: flush, detach the stream,
reset. -/
def put_output_empty (w : mxwriter) (resp : Option Nat) : HResult × mxwriter × List (List Nat) :=
  let r := flush_output_buffer w resp
  if r.1.failed then r
  else (HResult.S_OK, reset_output_buffer { r.2.1 with dest := false }, r.2.2)

/-- `IMXWriter::put_output` with an `IStream`: flush, reset, attach. -/
def put_output_stream (w : mxwriter) (resp : Option Nat) : HResult × mxwriter × List (List Nat) :=
  let r := flush_output_buffer w resp
  if r.1.failed then r
  else (HResult.S_OK, { reset_output_buffer r.2.1 with dest := true }, r.2.2)

/-- `MXWriter_create`: the freshly constructed writer (BOM on, all other
properties off, UTF-16 encoding, version `1.0`, no pending tag, no
stream, empty buffer). -/
def MXWriter_create (version6 : Bool) : mxwriter :=
  { classVersion6 := version6
    props := { bom := true, disableEscaping := false, indent := false,
               omitXmlDecl := false, standalone := false }
    prop_changed := false
    encoding := xmlCharEncoding.utf16le
    version := strLit "1.0"
    element := none
    dest := false
    dest_written := 0
    buffer := { utf16 := [], encoded := [], code_page := CodePage.cpNone } }

/-- The writer states reachable from construction by any sequence of the
modelled operations, with the destination stream free to accept any
number of bytes or fail at each flush. -/
inductive Reachable : mxwriter → Prop
  | create (v6 : Bool) : Reachable (MXWriter_create v6)
  | startDoc {w : mxwriter} : Reachable w → Reachable (startDocument w).2.1
  | endDoc {w : mxwriter} (resp : Option Nat) : Reachable w → Reachable (endDocument w resp).2.1
  | startElem {w : mxwriter} (ns ln q : Option (List Nat)) (nq : Nat)
      (attrs : Option (List (List Nat × List Nat))) :
      Reachable w → Reachable (startElement w ns ln q nq attrs).2
  | endElem {w : mxwriter} (ns ln q : Option (List Nat)) (nq : Nat) :
      Reachable w → Reachable (endElement w ns ln q nq).2
  | chars {w : mxwriter} (cs : Option (List Nat)) (n : Nat) :
      Reachable w → Reachable (characters w cs n).2
  | flush {w : mxwriter} (resp : Option Nat) :
      Reachable w → Reachable (flush_output_buffer w resp).2.1
  | putEnc {w : mxwriter} (name : List Nat) (resp : Option Nat) :
      Reachable w → Reachable (put_encoding w name resp).2.1
  | putVer {w : mxwriter} (v : Option (List Nat)) :
      Reachable w → Reachable (put_version w v).2
  | setProp {w : mxwriter} (p : MXProp) (v : Bool) :
      Reachable w → Reachable (writer_set_property w p v).2
  | putOutEmpty {w : mxwriter} (resp : Option Nat) :
      Reachable w → Reachable (put_output_empty w resp).2.1
  | putOutStream {w : mxwriter} (resp : Option Nat) :
      Reachable w → Reachable (put_output_stream w resp).2.1

/-- The state produced by the §8 example event sequence on a fresh
writer: default configuration (standalone no, declaration not omitted,
encoding UTF-16), events `startDocument`,
`startElement("a", [("id","1")])`, `characters("x<y")`,
`endElement("a")`, `endDocument`. -/
def exampleRun : mxwriter :=
  let w := (startDocument (MXWriter_create false)).2.1
  let w := (startElement w (some []) (some []) (some (strLit "a")) 1
      (some [(strLit "id", strLit "1")])).2
  let w := (characters w (some (strLit "x<y")) 3).2
  let w := (endElement w (some []) (some []) (some (strLit "a")) 1).2
  (endDocument w none).2.1

/-- ASCII case folding, following the spec's words "compared
case-insensitively"; the source itself has no case-insensitive
comparison at this call site, which is what the C4 counterexample
exhibits. -/
def spec_ci_lower (c : Nat) : Nat := if 65 ≤ c ∧ c ≤ 90 then c + 32 else c

/-- One buffer state extends another: same code page and both content
lists only grown by appends. -/
def buffer_extends (b b2 : output_buffer) : Prop :=
  b2.code_page = b.code_page ∧ (∃ s, b2.utf16 = b.utf16 ++ s) ∧ ∃ t, b2.encoded = b.encoded ++ t

/-- The SinkFlusher invariant: the count of bytes already delivered to
the sink never exceeds the written count of the chosen buffer
representation. -/
def Inv (w : mxwriter) : Prop := w.dest_written ≤ (chosenBytes w).length

/-- A writer configured with the declaration omitted and a sink
attached (UTF-16 encoding and BOM property at their defaults). -/
def c10state : mxwriter :=
  { MXWriter_create false with
    props := { bom := true, disableEscaping := false, indent := false,
               omitXmlDecl := true, standalone := false }
    dest := true }

/-- A fresh writer with the property-changed flag raised. -/
def c7dirty : mxwriter := { MXWriter_create false with prop_changed := true }

/-! ## Helper lemmas -/

theorem wob_utf16_len (b : output_buffer) (d : List Nat) (n : Nat) :
    (write_output_buffer b d (some n)).utf16 = b.utf16 ++ d.take n := by
  simp [write_output_buffer, write_output_buffer_mode, wspan]

theorem startElement_element (w : mxwriter) (ns ln q : List Nat) (nq : Nat)
    (attrs : Option (List (List Nat × List Nat))) :
    ((startElement w (some ns) (some ln) (some q) nq attrs).2).element = some (q.take nq) := by
  simp [startElement]

theorem startElement_ok (w : mxwriter) (ns ln q : List Nat) (nq : Nat)
    (attrs : Option (List (List Nat × List Nat))) :
    (startElement w (some ns) (some ln) (some q) nq attrs).1 = HResult.S_OK := by
  simp [startElement]

/-! ## C1 -/

/-- C1 (corrected): the §8 example sequence does not produce the
spec's string: `characters` performs no escaping, so the character data
`x<y` is emitted raw, not as `x&lt;y`. -/
theorem C1_counterexample_no_escaping :
    exampleRun.buffer.utf16 ≠
      strLit "<?xml version=\"1.0\" encoding=\"UTF-16\" standalone=\"no\"?>\r\n<a id=\"1\">x&lt;y</a>" := by
  decide

/-- C1 (amended): `characters(text, length)` with non-null text appends
the text span to the output buffer verbatim — the escaping transform is
never applied to character data (only attribute values are escaped) —
and the §8 example event sequence with the default configuration
(standalone no, declaration kept, UTF-16) produces the claimed output
except that the character data stays raw: `...>x<y</a>`. -/
theorem C1_characters_unescaped :
    (∀ (w : mxwriter) (cs : List Nat) (n : Nat),
      (characters w (some cs) n).1 = HResult.S_OK ∧
      ((characters w (some cs) n).2).element = none ∧
      ((characters w (some cs) n).2).buffer.utf16 =
        w.buffer.utf16 ++ (if w.element.isSome then [62] else []) ++ cs.take n) ∧
    exampleRun.buffer.utf16 =
      strLit "<?xml version=\"1.0\" encoding=\"UTF-16\" standalone=\"no\"?>\r\n<a id=\"1\">x<y</a>" := by
  constructor
  · intro w cs n
    by_cases hn : n = 0 <;> cases he : w.element <;>
      simp [characters, close_element_starttag, he, hn, wob_utf16_len, List.append_assoc]
  · decide

/-! ## C2 -/

/-- C2 (corrected): `endElement` right after `startElement("ab")` with
the *different* qualified name `a` still emits the self-closing `/>`,
because the match is `strncmpW` over the incoming length only — the
claim's "same length and same content" is violated. -/
theorem C2_counterexample_prefix_match :
    ((endElement (startElement (MXWriter_create false) (some []) (some [])
        (some (strLit "ab")) 2 none).2 (some []) (some []) (some (strLit "a")) 1).2).buffer.utf16
      = strLit "<ab/>" ∧
    strLit "ab" ≠ strLit "a" := by
  constructor
  · decide
  · decide

/-- C2 (amended): after a `startElement` that records `q.take nq`, an
`endElement(q2, nq2)` emits the self-closing `/>` iff
`strncmpW(recorded, q2, nq2)` reports a match — agreement on the first
`nq2` units up to NUL termination, which is weaker than same-length
equality — and otherwise emits `</` + `q2` + `>`; the pending tag is
cleared unconditionally in both cases. -/
theorem C2_endElement_strncmp (w : mxwriter) (ns ln q : List Nat) (nq : Nat)
    (ns2 ln2 q2 : List Nat) (nq2 : Nat) :
    (startElement w (some ns) (some ln) (some q) nq none).1 = HResult.S_OK ∧
    ((endElement (startElement w (some ns) (some ln) (some q) nq none).2
        (some ns2) (some ln2) (some q2) nq2).2).element = none ∧
    ((endElement (startElement w (some ns) (some ln) (some q) nq none).2
        (some ns2) (some ln2) (some q2) nq2).2).buffer.utf16 =
      ((startElement w (some ns) (some ln) (some q) nq none).2).buffer.utf16 ++
        (if strncmpW_eq (q.take nq) q2 nq2 then [47, 62]
         else [60, 47] ++ q2.take nq2 ++ [62]) := by
  refine ⟨startElement_ok w ns ln q nq none, ?_, ?_⟩
  · simp [endElement]
  · have he := startElement_element w ns ln q nq none
    by_cases hm : strncmpW_eq (q.take nq) q2 nq2 <;>
      simp [endElement, he, hm, endTagWrite, wob_utf16_len, List.append_assoc]

/-! ## C8 -/

/-- C8 (corrected): with a supplied length of 3 and an embedded NUL at
index 1, the escaper's loop consumes only one unit and produces only
the escape of that unit — not "exactly that many units regardless of
content". -/
theorem C8_counterexample_nul_stops :
    escConsumed [97, 0, 98] 3 = 1 ∧ (1 : Nat) ≠ 3 ∧
    get_escaped_string_len [97, 0, 98] 3 = [97] := by
  decide

/-- C8 (amended): with a supplied length `n` the escaper consumes
exactly the NUL-free prefix of the first `n` units — exactly `n` units
when no NUL occurs among them, fewer when an embedded NUL terminates
the scan early — and its output is exactly the escape of that prefix. -/
theorem C8_consumed_prefix (l : List Nat) (n : Nat) :
    escConsumed l n = ((l.take n).takeWhile (fun c => c != 0)).length ∧
    get_escaped_string_len l n =
      (((l.take n).takeWhile (fun c => c != 0)).map escW).flatten := by
  induction n generalizing l with
  | zero => simp [escConsumed, get_escaped_string_len]
  | succ m ih =>
    cases l with
    | nil => simp [escConsumed, get_escaped_string_len]
    | cons c t =>
      by_cases hc : c = 0
      · subst hc
        simp [escConsumed, get_escaped_string_len]
      · have h := ih t
        constructor
        · simp [escConsumed, hc, h.1, List.takeWhile_cons, Nat.add_comm]
        · simp [get_escaped_string_len, hc, h.2, List.takeWhile_cons]

/-! ## C9 -/

/-- C9 (corrected): setting the version to the empty string does *not*
fail — it succeeds and replaces the stored default `1.0` with the empty
string. -/
theorem C9_counterexample_empty_accepted :
    (put_version (MXWriter_create false) (some [])).1 = HResult.S_OK ∧
    (put_version (MXWriter_create false) (some [])).2.version = [] ∧
    (MXWriter_create false).version = strLit "1.0" := by
  decide

/-- C9 (amended): `put_version` fails only on a null argument, leaving
the stored version unchanged; every non-null value, the empty string
included, succeeds and replaces the stored version. -/
theorem C9_put_version (w : mxwriter) (s : List Nat) :
    put_version w none = (HResult.E_INVALIDARG, w) ∧
    put_version w (some s) = (HResult.S_OK, { w with version := s }) :=
  ⟨rfl, rfl⟩

/-! ## C3 -/

theorem escW_length (c : Nat) :
    (escW c).length = 1 + 3 * (if c = 60 then 1 else 0) + 4 * (if c = 38 then 1 else 0)
      + 5 * (if c = 34 then 1 else 0) + 3 * (if c = 62 then 1 else 0) := by
  unfold escW
  split_ifs <;> simp_all

theorem escFlat_length (l : List Nat) :
    ((l.map escW).flatten).length =
      l.length + 3 * l.count 60 + 4 * l.count 38 + 5 * l.count 34 + 3 * l.count 62 := by
  induction l with
  | nil => simp
  | cons c t ih =>
    simp only [List.map_cons, List.flatten_cons, List.length_append, List.length_cons, ih,
      List.count_cons, escW_length c, beq_iff_eq]
    by_cases h60 : c = 60 <;> by_cases h38 : c = 38 <;> by_cases h34 : c = 34 <;>
      by_cases h62 : c = 62 <;> simp_all <;> omega

theorem gesl_eq_flatten (l : List Nat) (h : ∀ c ∈ l, c ≠ 0) :
    get_escaped_string_len l l.length = (l.map escW).flatten := by
  revert h
  induction l with
  | nil => intro h; rfl
  | cons c t ih =>
    intro h
    have hc : c ≠ 0 := h c (List.mem_cons_self c t)
    have ht := ih (fun x hx => h x (List.mem_cons_of_mem c hx))
    simp [get_escaped_string_len, hc, ht]

/-- C3 (confirmed): for an input span with a supplied explicit length
and no embedded NUL, the escaper replaces every `<`, `&`, `"`, `>` by
its entity and copies every other unit unchanged (the output is exactly
the concatenation of the per-unit entity table over the input), and the
returned output length is the input length plus 3 per `<`, 4 per `&`,
5 per `"` and 3 per `>`. -/
theorem C3_escape_total (l : List Nat) (h : ∀ c ∈ l, c ≠ 0) :
    get_escaped_string l (some l.length) =
      ((l.map escW).flatten, some ((l.map escW).flatten).length) ∧
    (get_escaped_string l (some l.length)).1.length =
      l.length + 3 * l.count 60 + 4 * l.count 38 + 5 * l.count 34 + 3 * l.count 62 := by
  have h1 := gesl_eq_flatten l h
  have h2 : (get_escaped_string l (some l.length)).1 = get_escaped_string_len l l.length := rfl
  refine ⟨?_, ?_⟩
  · simp [get_escaped_string, h1]
  · rw [h2, h1, escFlat_length]

/-- C3 witness: the theorem applied to the concrete input `x<y&"z>`. -/
theorem C3_escape_total_witness :
    (∀ c ∈ strLit "x<y&\"z>", c ≠ 0) ∧
    (get_escaped_string (strLit "x<y&\"z>") (some (strLit "x<y&\"z>").length)).1.length =
      (strLit "x<y&\"z>").length + 3 * (strLit "x<y&\"z>").count 60 +
        4 * (strLit "x<y&\"z>").count 38 + 5 * (strLit "x<y&\"z>").count 34 +
        3 * (strLit "x<y&\"z>").count 62 :=
  ⟨by decide, (C3_escape_total (strLit "x<y&\"z>") (by decide)).2⟩

/-! ## C4 -/

/-- C4 (corrected): the name `utf-16`, equal to `UTF-16` under the
case folding the claim calls for, is rejected with `E_INVALIDARG` and
the writer is left entirely unchanged — the comparison in the source is
the case-sensitive `strcmpW`, not a case-insensitive one. -/
theorem C4_counterexample_case_sensitive :
    (put_encoding (MXWriter_create false) (strLit "utf-16") (some 0)).1 =
      HResult.E_INVALIDARG ∧
    (put_encoding (MXWriter_create false) (strLit "utf-16") (some 0)).2.1 =
      MXWriter_create false ∧
    (put_encoding (MXWriter_create false) (strLit "utf-16") (some 0)).2.2 = [] ∧
    (strLit "utf-16").map spec_ci_lower = utf16W.map spec_ci_lower := by
  refine ⟨by decide, by decide, by decide, by decide⟩

/-- C4 (amended): setting the encoding succeeds iff the supplied name
equals `UTF-16` or `UTF-8` under the case-sensitive `strcmpW`; any
other name fails with `E_INVALIDARG` leaving the buffered content, the
sink offset and the active encoding unchanged, while a matching name
(here with no sink attached, so the preceding flush trivially succeeds)
closes any pending tag, adopts the encoding and resets the buffer and
offset. -/
theorem C4_put_encoding_exact (w : mxwriter) (name : List Nat) (resp : Option Nat) :
    (strcmpW_eq name utf16W = false → strcmpW_eq name utf8W = false →
      put_encoding w name resp = (HResult.E_INVALIDARG, w, [])) ∧
    (strcmpW_eq name utf16W = true → w.dest = false →
      put_encoding w name resp =
        (HResult.S_OK,
         { flush_preamble w with
           encoding := xmlCharEncoding.utf16le
           dest_written := 0
           buffer := { utf16 := [], encoded := [], code_page := CodePage.cpNone } }, [])) ∧
    (strcmpW_eq name utf16W = false → strcmpW_eq name utf8W = true → w.dest = false →
      put_encoding w name resp =
        (HResult.S_OK,
         { flush_preamble w with
           encoding := xmlCharEncoding.utf8
           dest_written := 0
           buffer := { utf16 := [], encoded := [], code_page := CodePage.cpUTF8 } }, [])) := by
  have hdest : ∀ hd : w.dest = false, flush_output_buffer w resp = (HResult.S_OK, flush_preamble w, []) := by
    intro hd
    have : (flush_preamble w).dest = false := by
      cases he : w.element <;> simp [flush_preamble, close_element_starttag, he, hd]
    simp [flush_output_buffer, write_data_to_stream, this]
  refine ⟨?_, ?_, ?_⟩
  · intro h16 h8
    simp [put_encoding, h16, h8]
  · intro h16 hd
    simp [put_encoding, h16, hdest hd, HResult.failed, reset_output_buffer,
      close_output_buffer, get_code_page]
  · intro h16 h8 hd
    simp [put_encoding, h16, h8, hdest hd, HResult.failed, reset_output_buffer,
      close_output_buffer, get_code_page]

/-- C4 witness: the amended theorem applied at the fresh writer with the
exact name `UTF-8`. -/
theorem C4_put_encoding_exact_witness :
    put_encoding (MXWriter_create false) (strLit "UTF-8") (some 0) =
      (HResult.S_OK,
       { flush_preamble (MXWriter_create false) with
         encoding := xmlCharEncoding.utf8
         dest_written := 0
         buffer := { utf16 := [], encoded := [], code_page := CodePage.cpUTF8 } }, []) :=
  (C4_put_encoding_exact (MXWriter_create false) (strLit "UTF-8") (some 0)).2.2
    (by decide) (by decide) (by decide)

/-! ## C5 -/

/-- C5 (confirmed): from any state with no pending tag, a sink
attached, and the sink offset equal to the written count of the chosen
buffer representation (nothing new since the previous flush), a flush
transfers zero bytes: under UTF-16 it is a complete no-op performing no
sink write at all, and under UTF-8 it performs exactly one zero-length
sink write and leaves the offset unchanged. -/
theorem C5_flush_idempotent (w : mxwriter) (resp : Option Nat)
    (helem : w.element = none) (hdest : w.dest = true)
    (hflushed : w.dest_written = (chosenBytes w).length) :
    (w.encoding = xmlCharEncoding.utf16le →
      flush_output_buffer w resp = (HResult.S_OK, w, [])) ∧
    (w.encoding = xmlCharEncoding.utf8 →
      (flush_output_buffer w resp).2.2 = [[]] ∧
      (flush_output_buffer w resp).2.1.dest_written = w.dest_written) := by
  have hfp : flush_preamble w = w := by
    cases w with
    | mk cv ps pc enc ver elem dest dw buf =>
      have he : elem = none := helem
      subst he
      rfl
  rw [flush_output_buffer, hfp]
  constructor
  · intro henc
    have : w.encoding ≠ xmlCharEncoding.utf8 := by rw [henc]; decide
    simp [write_data_to_stream, hdest, hflushed, this]
  · intro henc
    have hne : ¬ (w.dest_written = (chosenBytes w).length ∧ w.encoding ≠ xmlCharEncoding.utf8) := by
      simp [henc]
    have hdrop : (chosenBytes w).drop w.dest_written = [] := by
      rw [hflushed]; exact List.drop_length _
    cases resp <;>
      simp [write_data_to_stream, hdest, hflushed, hne, hdrop, henc]

/-- C5 witness: the fresh writer with a sink attached satisfies the
hypotheses (empty buffer, offset zero, no pending tag), and the theorem
gives the UTF-16 no-op flush. -/
theorem C5_flush_idempotent_witness :
    flush_output_buffer { MXWriter_create false with dest := true } (some 0) =
      (HResult.S_OK, { MXWriter_create false with dest := true }, []) :=
  (C5_flush_idempotent { MXWriter_create false with dest := true } (some 0)
    (by decide) (by decide) (by decide)).1 (by decide)

/-! ## Buffer-growth lemmas -/

theorem buffer_extends_refl (b : output_buffer) : buffer_extends b b :=
  ⟨rfl, ⟨[], by simp⟩, ⟨[], by simp⟩⟩

theorem buffer_extends_trans {a b c : output_buffer}
    (h1 : buffer_extends a b) (h2 : buffer_extends b c) : buffer_extends a c := by
  obtain ⟨hc1, ⟨s1, hs1⟩, ⟨t1, ht1⟩⟩ := h1
  obtain ⟨hc2, ⟨s2, hs2⟩, ⟨t2, ht2⟩⟩ := h2
  exact ⟨hc2.trans hc1,
    ⟨s1 ++ s2, by rw [hs2, hs1, List.append_assoc]⟩,
    ⟨t1 ++ t2, by rw [ht2, ht1, List.append_assoc]⟩⟩

theorem wobm_extends (b : output_buffer) (m : output_mode) (d : List Nat) (l : Option Nat) :
    buffer_extends b (write_output_buffer_mode b m d l) :=
  ⟨rfl, ⟨_, rfl⟩, ⟨_, rfl⟩⟩

theorem extends_wobm {a b : output_buffer} (h : buffer_extends a b) (m : output_mode)
    (d : List Nat) (l : Option Nat) : buffer_extends a (write_output_buffer_mode b m d l) :=
  buffer_extends_trans h (wobm_extends b m d l)

theorem extends_wob {a b : output_buffer} (h : buffer_extends a b)
    (d : List Nat) (l : Option Nat) : buffer_extends a (write_output_buffer b d l) :=
  extends_wobm h output_mode.both d l

theorem write_prolog_extends (w : mxwriter) :
    buffer_extends w.buffer (write_prolog_buffer w) := by
  by_cases hs : w.props.standalone <;>
    simp only [write_prolog_buffer, hs, if_true, if_false] <;>
    repeat first
      | exact buffer_extends_refl _
      | apply extends_wob
      | apply extends_wobm

theorem write_attribute_extends (b : output_buffer) (a : List Nat × List Nat) :
    buffer_extends b (write_attribute b a) := by
  simp only [write_attribute]
  repeat first
    | exact buffer_extends_refl _
    | apply extends_wob
    | apply extends_wobm

theorem foldl_write_attribute_extends (l : List (List Nat × List Nat)) (b : output_buffer) :
    buffer_extends b (l.foldl write_attribute b) := by
  induction l generalizing b with
  | nil => exact buffer_extends_refl b
  | cons a t ih =>
    exact buffer_extends_trans (write_attribute_extends b a) (ih (write_attribute b a))

theorem endTag_extends (b : output_buffer) (q : List Nat) (n : Nat) :
    buffer_extends b (endTagWrite b q n) := by
  simp only [endTagWrite]
  repeat first
    | exact buffer_extends_refl _
    | apply extends_wob
    | apply extends_wobm

theorem close_buffer_extends (w : mxwriter) :
    buffer_extends w.buffer (close_element_starttag w).buffer := by
  unfold close_element_starttag
  cases w.element
  · exact buffer_extends_refl _
  · exact wobm_extends _ _ _ _

theorem close_dw (w : mxwriter) :
    (close_element_starttag w).dest_written = w.dest_written := by
  unfold close_element_starttag
  cases w.element <;> rfl

theorem close_enc (w : mxwriter) :
    (close_element_starttag w).encoding = w.encoding := by
  unfold close_element_starttag
  cases w.element <;> rfl

theorem utf16Bytes_append (a b : List Nat) :
    utf16Bytes (a ++ b) = utf16Bytes a ++ utf16Bytes b := by
  simp [utf16Bytes]

/-! ## Invariant preservation -/

theorem Inv_of_parts {w w2 : mxwriter} (h : Inv w) (hdw : w2.dest_written = w.dest_written)
    (henc : w2.encoding = w.encoding)
    (hbuf : buffer_extends w.buffer w2.buffer) : Inv w2 := by
  obtain ⟨-, ⟨s, hs⟩, ⟨t, ht⟩⟩ := hbuf
  unfold Inv chosenBytes at *
  rw [hdw, henc]
  cases he : w.encoding <;> simp only [he] at h ⊢
  · simp only [reduceCtorEq, if_false] at h ⊢
    rw [ht, List.length_append]
    omega
  · simp only [if_true] at h ⊢
    rw [hs, utf16Bytes_append, List.length_append]
    omega

theorem Inv_reset (w : mxwriter) : Inv (reset_output_buffer w) := Nat.zero_le _

theorem Inv_flush_preamble (w : mxwriter) (h : Inv w) : Inv (flush_preamble w) :=
  Inv_of_parts h (close_dw w) (close_enc w) (close_buffer_extends w)

theorem Inv_write_data (w : mxwriter) (resp : Option Nat) (h : Inv w) :
    Inv (write_data_to_stream w resp).2.1 := by
  simp only [write_data_to_stream]
  split
  · exact h
  · split
    · exact h
    · split
      · exact h
      · cases resp with
        | none => exact h
        | some k =>
          next hlt _ =>
            show w.dest_written +
                min k ((List.drop w.dest_written (chosenBytes w)).length) ≤
              (chosenBytes w).length
            rw [List.length_drop]
            have hm := Nat.min_le_right k ((chosenBytes w).length - w.dest_written)
            unfold Inv at h
            omega

theorem Inv_flush (w : mxwriter) (resp : Option Nat) (h : Inv w) :
    Inv (flush_output_buffer w resp).2.1 :=
  Inv_write_data _ resp (Inv_flush_preamble w h)

theorem startDocument_pc (w : mxwriter) (hpc : w.prop_changed = true) :
    startDocument w = startDocument { reset_output_buffer w with prop_changed := false } := by
  simp [startDocument, hpc, reset_output_buffer, close_output_buffer]

theorem startDocument_omit_full (w : mxwriter) (hpc : w.prop_changed = false)
    (ho : w.props.omitXmlDecl = true) : startDocument w = (HResult.S_OK, w, []) := by
  simp [startDocument, hpc, ho]

theorem startDocument_omit (w : mxwriter) (hpc : w.prop_changed = false)
    (ho : w.props.omitXmlDecl = true) : (startDocument w).2.1 = w := by
  rw [startDocument_omit_full w hpc ho]

theorem startDocument_prolog (w : mxwriter) (hpc : w.prop_changed = false)
    (ho : w.props.omitXmlDecl = false) :
    (startDocument w).2.1 = { w with buffer := write_prolog_buffer w } := by
  simp [startDocument, hpc, ho]

theorem Inv_startDocument (w : mxwriter) (h : Inv w) : Inv (startDocument w).2.1 := by
  have aux : ∀ u : mxwriter, u.prop_changed = false → Inv u → Inv (startDocument u).2.1 := by
    intro u hpc hu
    by_cases ho : u.props.omitXmlDecl
    · rw [startDocument_omit u hpc ho]
      exact hu
    · rw [startDocument_prolog u hpc (by simpa using ho)]
      exact Inv_of_parts hu rfl rfl (write_prolog_extends u)
  by_cases hpc : w.prop_changed
  · rw [startDocument_pc w hpc]
    exact aux _ rfl (Nat.zero_le _)
  · exact aux w (by simpa using hpc) h

theorem Inv_endDocument (w : mxwriter) (resp : Option Nat) (h : Inv w) :
    Inv (endDocument w resp).2.1 :=
  Inv_flush { w with prop_changed := false } resp
    (Inv_of_parts h rfl rfl (buffer_extends_refl w.buffer))

theorem Inv_startElement (w : mxwriter) (ns ln qn : Option (List Nat)) (nq : Nat)
    (attrs : Option (List (List Nat × List Nat))) (h : Inv w) :
    Inv (startElement w ns ln qn nq attrs).2 := by
  simp only [startElement]
  split
  · exact h
  · refine Inv_of_parts h ?_ ?_ ?_
    · exact close_dw w
    · exact close_enc w
    · cases attrs
      · exact extends_wob (extends_wob (close_buffer_extends w) _ _) _ _
      · exact buffer_extends_trans
          (extends_wob (extends_wob (close_buffer_extends w) _ _) _ _)
          (foldl_write_attribute_extends _ _)

theorem Inv_endElement (w : mxwriter) (ns ln qn : Option (List Nat)) (nq : Nat) (h : Inv w) :
    Inv (endElement w ns ln qn nq).2 := by
  simp only [endElement]
  split
  · exact h
  · refine Inv_of_parts h ?_ ?_ ?_
    · rfl
    · rfl
    · rcases w.element with _ | e <;> rcases qn with _ | qv
      · exact endTag_extends _ _ _
      · exact endTag_extends _ _ _
      · exact endTag_extends _ _ _
      · by_cases hm : strncmpW_eq e qv nq
        · have hx : buffer_extends w.buffer (write_output_buffer w.buffer [47, 62] (some 2)) :=
            wobm_extends _ _ _ _
          simpa [hm] using hx
        · have hx : buffer_extends w.buffer (endTagWrite w.buffer qv nq) :=
            endTag_extends _ _ _
          simp only [Bool.not_eq_true] at hm
          simpa [hm] using hx

theorem Inv_characters (w : mxwriter) (cs : Option (List Nat)) (n : Nat) (h : Inv w) :
    Inv (characters w cs n).2 := by
  cases cs with
  | none => exact h
  | some l =>
    by_cases hn : n = 0
    · simp only [characters, hn, ne_eq, not_true_eq_false, if_false]
      exact Inv_of_parts h (close_dw w) (close_enc w) (close_buffer_extends w)
    · simp only [characters, ne_eq, hn, not_false_eq_true, if_true]
      exact Inv_of_parts h (close_dw w) (close_enc w)
        (extends_wob (close_buffer_extends w) _ _)

theorem Inv_put_encoding (w : mxwriter) (name : List Nat) (resp : Option Nat) (h : Inv w) :
    Inv (put_encoding w name resp).2.1 := by
  simp only [put_encoding]
  split
  · split
    · exact Inv_flush w resp h
    · exact Inv_reset _
  · exact h

theorem Inv_put_version (w : mxwriter) (v : Option (List Nat)) (h : Inv w) :
    Inv (put_version w v).2 := by
  simp only [put_version]
  cases v
  · exact h
  · exact Inv_of_parts h rfl rfl (buffer_extends_refl w.buffer)

theorem Inv_set_property (w : mxwriter) (p : MXProp) (v : Bool) (h : Inv w) :
    Inv (writer_set_property w p v).2 :=
  Inv_of_parts h rfl rfl (buffer_extends_refl w.buffer)

theorem Inv_put_output_empty (w : mxwriter) (resp : Option Nat) (h : Inv w) :
    Inv (put_output_empty w resp).2.1 := by
  simp only [put_output_empty]
  split
  · exact Inv_flush w resp h
  · exact Inv_reset _

theorem Inv_put_output_stream (w : mxwriter) (resp : Option Nat) (h : Inv w) :
    Inv (put_output_stream w resp).2.1 := by
  simp only [put_output_stream]
  split
  · exact Inv_flush w resp h
  · exact Nat.zero_le _

/-! ## C6 -/

/-- C6 (confirmed): in every writer state reachable by any sequence of
the modelled operations, the sink offset is at most the written byte
count of the chosen buffer representation; moreover this still holds at
the point inside every flush where the source checks it (after the
pending tag has been closed), so the offset-exceeds-written fatal
`E_FAIL` branch of `write_data_to_stream` is unreachable from the flush
path of any reachable state. -/
theorem C6_offset_invariant (w : mxwriter) (h : Reachable w) :
    w.dest_written ≤ (chosenBytes w).length ∧
    ¬ (chosenBytes (flush_preamble w)).length < (flush_preamble w).dest_written := by
  have hi : Inv w := by
    induction h with
    | create v6 => exact Nat.zero_le _
    | startDoc _ ih => exact Inv_startDocument _ ih
    | endDoc resp _ ih => exact Inv_endDocument _ resp ih
    | startElem ns ln q nq attrs _ ih => exact Inv_startElement _ ns ln q nq attrs ih
    | endElem ns ln q nq _ ih => exact Inv_endElement _ ns ln q nq ih
    | chars cs n _ ih => exact Inv_characters _ cs n ih
    | flush resp _ ih => exact Inv_flush _ resp ih
    | putEnc name resp _ ih => exact Inv_put_encoding _ name resp ih
    | putVer v _ ih => exact Inv_put_version _ v ih
    | setProp p v _ ih => exact Inv_set_property _ p v ih
    | putOutEmpty resp _ ih => exact Inv_put_output_empty _ resp ih
    | putOutStream resp _ ih => exact Inv_put_output_stream _ resp ih
  exact ⟨hi, Nat.not_lt.mpr (Inv_flush_preamble w hi)⟩

/-- C6 witness: the invariant instantiated at the freshly constructed
writer. -/
theorem C6_offset_invariant_witness :
    (MXWriter_create false).dest_written ≤ (chosenBytes (MXWriter_create false)).length ∧
    ¬ (chosenBytes (flush_preamble (MXWriter_create false))).length <
      (flush_preamble (MXWriter_create false)).dest_written :=
  C6_offset_invariant (MXWriter_create false) (Reachable.create false)

/-! ## C7 -/

/-- C7 (confirmed): every boolean configuration property setter only
stores the value and raises the changed flag — buffers, sink offset,
pending tag, encoding, version, destination and the other property
slots are untouched — and the buffer reset with offset zeroing is
deferred: a `startDocument` entered with the flag set behaves exactly
as on the reset state with the flag already cleared (so its result has
offset zero and the flag cleared), while a `startDocument` entered with
the flag clear resets nothing (the offset is kept and the buffered
content survives as a prefix). -/
theorem C7_setter_defers_reset (w : mxwriter) (p : MXProp) (v : Bool)
    (u : mxwriter) (hu : u.prop_changed = true)
    (u2 : mxwriter) (hu2 : u2.prop_changed = false) :
    ((writer_set_property w p v).2.buffer = w.buffer ∧
     (writer_set_property w p v).2.dest_written = w.dest_written ∧
     (writer_set_property w p v).2.element = w.element ∧
     (writer_set_property w p v).2.encoding = w.encoding ∧
     (writer_set_property w p v).2.version = w.version ∧
     (writer_set_property w p v).2.dest = w.dest ∧
     (writer_set_property w p v).2.prop_changed = true ∧
     getProp (writer_set_property w p v).2.props p = v ∧
     ∀ p2 : MXProp, p2 ≠ p →
       getProp (writer_set_property w p v).2.props p2 = getProp w.props p2) ∧
    (startDocument u = startDocument { reset_output_buffer u with prop_changed := false } ∧
     (startDocument u).2.1.prop_changed = false ∧
     (startDocument u).2.1.dest_written = 0) ∧
    ((startDocument u2).2.1.dest_written = u2.dest_written ∧
     ∃ s, (startDocument u2).2.1.buffer.utf16 = u2.buffer.utf16 ++ s) := by
  refine ⟨⟨rfl, rfl, rfl, rfl, rfl, rfl, rfl, ?_, ?_⟩, ⟨?_, ?_, ?_⟩, ⟨?_, ?_⟩⟩
  · cases p <;> rfl
  · intro p2 hne
    cases p <;> cases p2 <;> simp_all [getProp, setPropF, writer_set_property]
  · exact startDocument_pc u hu
  · rw [startDocument_pc u hu]
    by_cases ho : ({ reset_output_buffer u with prop_changed := false } : mxwriter).props.omitXmlDecl
    · rw [startDocument_omit _ rfl ho]
    · rw [startDocument_prolog _ rfl (by simpa using ho)]
  · rw [startDocument_pc u hu]
    by_cases ho : ({ reset_output_buffer u with prop_changed := false } : mxwriter).props.omitXmlDecl
    · rw [startDocument_omit _ rfl ho]
      rfl
    · rw [startDocument_prolog _ rfl (by simpa using ho)]
      rfl
  · by_cases ho : u2.props.omitXmlDecl
    · rw [startDocument_omit u2 hu2 ho]
    · rw [startDocument_prolog u2 hu2 (by simpa using ho)]
  · by_cases ho : u2.props.omitXmlDecl
    · rw [startDocument_omit u2 hu2 ho]
      exact ⟨[], by simp⟩
    · obtain ⟨-, ⟨s, hs⟩, -⟩ := write_prolog_extends u2
      rw [startDocument_prolog u2 hu2 (by simpa using ho)]
      exact ⟨s, hs⟩

/-- C7 witness: the theorem applied with the indent setter on a fresh
writer, a dirty-flagged state, and a clean-flagged state. -/
theorem C7_setter_defers_reset_witness :
    (writer_set_property (MXWriter_create false) MXProp.indent true).2.buffer =
      (MXWriter_create false).buffer ∧
    (startDocument c7dirty).2.1.prop_changed = false ∧
    (startDocument (MXWriter_create false)).2.1.dest_written =
      (MXWriter_create false).dest_written :=
  ⟨(C7_setter_defers_reset (MXWriter_create false) MXProp.indent true c7dirty rfl
      (MXWriter_create false) rfl).1.1,
   (C7_setter_defers_reset (MXWriter_create false) MXProp.indent true c7dirty rfl
      (MXWriter_create false) rfl).2.1.2.1,
   (C7_setter_defers_reset (MXWriter_create false) MXProp.indent true c7dirty rfl
      (MXWriter_create false) rfl).2.2.1⟩

/-! ## C10 -/

/-- C10 (confirmed): with the omit-declaration property set,
`startDocument` emits nothing at all — it issues no stream write (in
particular not the UTF-16 byte-order mark, even with a sink attached,
UTF-16LE encoding and the BOM property enabled) and appends nothing to
either buffer (the buffers are either untouched or, when the changed
flag forces the deferred reset, freshly emptied). -/
theorem C10_omit_decl_silent (w : mxwriter)
    (homit : w.props.omitXmlDecl = true) (hdest : w.dest = true)
    (henc : w.encoding = xmlCharEncoding.utf16le) (hbom : w.props.bom = true) :
    (startDocument w).1 = HResult.S_OK ∧
    (startDocument w).2.2 = [] ∧
    (startDocument w).2.1.buffer.utf16 =
      (if w.prop_changed then [] else w.buffer.utf16) ∧
    (startDocument w).2.1.buffer.encoded =
      (if w.prop_changed then [] else w.buffer.encoded) := by
  by_cases hpc : w.prop_changed
  · rw [startDocument_pc w hpc,
      startDocument_omit_full { reset_output_buffer w with prop_changed := false } rfl homit]
    simp [hpc, reset_output_buffer, close_output_buffer]
  · rw [startDocument_omit_full w (by simpa using hpc) homit]
    simp [hpc]

/-- C10 witness: the theorem applied to a writer with the declaration
omitted, a sink attached, UTF-16 encoding and the BOM property on. -/
theorem C10_omit_decl_silent_witness :
    (startDocument c10state).1 = HResult.S_OK ∧
    (startDocument c10state).2.2 = [] ∧
    (startDocument c10state).2.1.buffer.utf16 =
      (if c10state.prop_changed then [] else c10state.buffer.utf16) ∧
    (startDocument c10state).2.1.buffer.encoded =
      (if c10state.prop_changed then [] else c10state.buffer.encoded) :=
  C10_omit_decl_silent c10state (by decide) (by decide) (by decide) (by decide)

end Mxwriter
